import Mathlib

/-!
Shallow embedding of `src/first_try.py` (Gemini Vision Extractor).

The script's per-run logic is: read an API key from a fixed precedence of
environment variables; for each uploaded image, call the remote model, strip
markdown code fences from the response text, parse it as JSON, wrap a single
object into a one-element list, flatten each entry into a fixed-column record
appended to `all_data`, catching any exception per image as a warning; after
the loop, offer the accumulated table as a spreadsheet download, or show an
error when the table is empty.

Python values flowing through the JSON part of the pipeline are modelled by
`Json`; exceptions (AttributeError from `.get` on a non-dict, TypeError from
`", ".join` on a non-iterable-of-strings) by `PyErr`.  The remote call and
`json.loads` are external to the claims about the loop, so a per-image input
is `Except PyErr Json`: either "some exception was raised during open, model
call, or parsing" or "the parsed JSON value".  The text-level fence stripping
(`re.sub(r"^BT BT BT(?:json)?|BT BT BT$", "", text, flags=re.MULTILINE)` where BT
denotes a backtick, then `.strip()`) is modelled separately on `List Char`.
-/

namespace FirstTry

/-- JSON values as returned by `json.loads`: `None`, `bool`, number, `str`,
`list`, `dict` (insertion-ordered association list with string keys).
JSON numbers are modelled as integers; no claim depends on numeric values. -/
inductive Json where
  | null : Json
  | bool (b : Bool) : Json
  | num (n : Int) : Json
  | str (s : String) : Json
  | arr (xs : List Json) : Json
  | obj (fields : List (String × Json)) : Json

/-- The two exception kinds the flattening code can raise: `AttributeError`
(calling `.get` on a value that is not a dict) and `TypeError`
(`", ".join` applied to a non-iterable or to non-string elements). -/
inductive PyErr where
  | attributeError : PyErr
  | typeError : PyErr
deriving DecidableEq

/-- Python `d.get(k, default)` on a dict: the value stored under `k`, or the
default when the key is absent. -/
def dictGet (fields : List (String × Json)) (k : String) (d : Json) : Json :=
  match fields.lookup k with
  | some v => v
  | none => d

/-- Python `v.get(k, default)` on an arbitrary value: succeeds only when `v`
is a dict, otherwise raises `AttributeError` (strings, lists, numbers, `None`
have no `.get` attribute). -/
def pyGet (j : Json) (k : String) (d : Json) : Except PyErr Json :=
  match j with
  | .obj fields => .ok (dictGet fields k d)
  | _ => .error .attributeError

/-- Element conversion inside `", ".join`: each element must already be a
`str`, anything else raises `TypeError`. -/
def asStr (j : Json) : Except PyErr String :=
  match j with
  | .str s => .ok s
  | _ => .error .typeError

/-- The iteration performed by `", ".join` over a list: each element must be
a `str`; the first non-string element raises `TypeError`. -/
def asStrList : List Json → Except PyErr (List String)
  | [] => .ok []
  | j :: rest => do
      let s ← asStr j
      let ss ← asStrList rest
      .ok (s :: ss)

/-- Python `", ".join(v)` for `v = entry.get("ContactNumbers", [])`:
a list joins its (string) elements; a bare string is iterated character by
character, each a one-character string; a dict is iterated over its keys;
a number, bool or `None` is not iterable and raises `TypeError`. -/
def joinContacts (j : Json) : Except PyErr String :=
  match j with
  | .arr xs => do
      let ss ← asStrList xs
      .ok (String.intercalate ", " ss)
  | .str s => .ok (String.intercalate ", " (s.data.map String.singleton))
  | .obj fields => .ok (String.intercalate ", " (fields.map Prod.fst))
  | _ => .error .typeError

/-- One row of the result table, the `flat_data` dict of the script.  The
seven keys appear in the dict literal in this order, which fixes the column
order of the exported spreadsheet.  The six direct fields hold whatever JSON
value `entry.get` returned; `ContactNumbers` is the joined string. -/
structure FlatRecord where
  establishmentType : Json
  hostelName : Json
  landmark1 : Json
  landmark2 : Json
  keyService : Json
  accommodationOptions : Json
  contactNumbers : String

/-- The `flat_data = { ... }` dict construction for one entry of the parsed
list.  `entry.get("LocationDetails", {})` is evaluated twice in the source
with identical result; it is bound once here.  Any `.get` on a non-dict or a
bad `", ".join` operand raises, aborting the image's processing. -/
def flat_data (entry : Json) : Except PyErr FlatRecord := do
  let et ← pyGet entry "EstablishmentType" (.str "")
  let hn ← pyGet entry "HostelName" (.str "")
  let ld ← pyGet entry "LocationDetails" (.obj [])
  let l1 ← pyGet ld "Landmark1" (.str "")
  let l2 ← pyGet ld "Landmark2" (.str "")
  let ks ← pyGet entry "KeyService" (.str "")
  let ao ← pyGet entry "AccommodationOptions" (.str "")
  let cnv ← pyGet entry "ContactNumbers" (.arr [])
  let cn ← joinContacts cnv
  .ok ⟨et, hn, l1, l2, ks, ao, cn⟩

/-- `if isinstance(parsed, dict): parsed = [parsed]` followed by
`for entry in parsed`: a dict is wrapped into a one-element list; a list is
iterated over its elements; a string is iterated over its characters (each a
one-character string); a number, bool or `None` is not iterable and raises
`TypeError`. -/
def iterateParsed (parsed : Json) : Except PyErr (List Json) :=
  match parsed with
  | .obj fields => .ok [.obj fields]
  | .arr xs => .ok xs
  | .str s => .ok (s.data.map (fun c => Json.str (String.singleton c)))
  | _ => .error .typeError

/-- The `for entry in parsed` loop body: flatten each entry and append it to
`all_data`.  When an entry raises, the loop stops there; records appended by
the earlier entries of the same image stay in `all_data` and the image is
reported as failed (`false`). -/
def flattenEntries : List Json → List FlatRecord → List FlatRecord × Bool
  | [], acc => (acc, true)
  | e :: rest, acc =>
    match flat_data e with
    | .ok r => flattenEntries rest (acc ++ [r])
    | .error _ => (acc, false)

/-- The whole `try` body for one image, starting from the outcome of
open/model-call/`json.loads` (`inp`): exceptions raised before iteration, or
during it, land in the `except` branch (`false`, a warning); `true` reaches
`st.success`. -/
def processImage (inp : Except PyErr Json) (acc : List FlatRecord) :
    List FlatRecord × Bool :=
  match inp with
  | .error _ => (acc, false)
  | .ok parsed =>
    match iterateParsed parsed with
    | .error _ => (acc, false)
    | .ok entries => flattenEntries entries acc

/-- State accumulated across the image loop: `all_data` plus the number of
`st.success` and `st.warning` messages emitted so far. -/
structure RunState where
  all_data : List FlatRecord
  successes : Nat
  warnings : Nat

/-- One iteration of `for idx, uploaded_image in enumerate(uploaded_images)`:
each image ends in exactly one message, success or warning. -/
def stepImage (s : RunState) (inp : Except PyErr Json) : RunState :=
  match processImage inp s.all_data with
  | (acc, true) => ⟨acc, s.successes + 1, s.warnings⟩
  | (acc, false) => ⟨acc, s.successes, s.warnings + 1⟩

/-- The full image loop, from `all_data = []`. -/
def runLoop (inputs : List (Except PyErr Json)) : RunState :=
  inputs.foldl stepImage ⟨[], 0, 0⟩

/-- Outcome of the post-loop block: either a download button carrying the
spreadsheet (column order, rows, filename) or the `st.error` message. -/
inductive ExportResult where
  | download (columns : List String) (rows : List FlatRecord) (filename : String) : ExportResult
  | errorMessage (msg : String) : ExportResult

/-- Column order of the exported sheet: the key order of the `flat_data`
dict literal, which `pd.DataFrame` preserves. -/
def columnOrder : List String :=
  ["EstablishmentType", "HostelName", "Landmark1", "Landmark2", "KeyService",
   "AccommodationOptions", "ContactNumbers"]

/-- The `if all_data: ... download ... else: st.error(...)` block, executed
once, after the loop. -/
def exportStep (all_data : List FlatRecord) : ExportResult :=
  match all_data with
  | [] => .errorMessage "No valid data was extracted from the uploaded images."
  | _ => .download columnOrder all_data "Combined_Extracted_Data.xlsx"

/-- Loop followed by the single export step. -/
def runApp (inputs : List (Except PyErr Json)) : ExportResult :=
  exportStep (runLoop inputs).all_data

/-- Python truthiness of `os.getenv`'s result: `None` and the empty string
are falsy, a non-empty string is truthy. -/
def truthy (v : Option String) : Bool :=
  match v with
  | none => false
  | some s => !s.isEmpty

/-- Python `a or b` restricted to optional strings: `a` when truthy, else `b`. -/
def pyOrStr (a b : Option String) : Option String :=
  if truthy a then a else b

/-- The `api_key = os.getenv(...) or os.getenv(...) or ...` chain, as a
function of the environment. -/
def api_key (env : String → Option String) : Option String :=
  pyOrStr (env "GENAI_API_KEY")
    (pyOrStr (env "GEMINI_API_KEY")
      (pyOrStr (env "GOOGLE_API_KEY") (env "API_KEY")))

/-- The precedence order of the environment variables consulted for the key. -/
def keyVars : List String :=
  ["GENAI_API_KEY", "GEMINI_API_KEY", "GOOGLE_API_KEY", "API_KEY"]

/-- The spec's reading of the chain: the value of the first variable in the
fixed order whose value is set and non-empty, absent otherwise. -/
def firstNonEmpty : List (Option String) → Option String
  | [] => none
  | v :: rest =>
    match v with
    | some s => if s.isEmpty then firstNonEmpty rest else some s
    | none => firstNonEmpty rest

/-- First non-empty variable of `keyVars` under `env`. -/
def firstNonEmptyKey (env : String → Option String) : Option String :=
  firstNonEmpty (keyVars.map env)

/-- A right-nested `or`-chain over optional strings; `api_key` is the chain
over the four variables in precedence order. -/
def pyOrChain : List (Option String) → Option String
  | [] => none
  | [v] => v
  | v :: rest => pyOrStr v (pyOrChain rest)

/-- Rows contributed to `all_data` by one image when processed alone. -/
def imageRows (inp : Except PyErr Json) : List FlatRecord :=
  (processImage inp []).1

/-- Whether one image ends in `st.success` (`true`) or `st.warning` (`false`). -/
def imageOk (inp : Except PyErr Json) : Bool :=
  (processImage inp []).2

/-- Number of parsed entries the loop iterates over for one image (0 when the
image failed before iteration). -/
def numEntries (inp : Except PyErr Json) : Nat :=
  match inp with
  | .ok p =>
    match iterateParsed p with
    | .ok es => es.length
    | .error _ => 0
  | .error _ => 0

/-!
Text-level model of
`clean_text = re.sub(pattern, "", response.text, flags=re.MULTILINE).strip()`
where `pattern` alternates a line-anchored opening fence (three backticks,
optionally followed by the language tag `json`) and a line-terminal fence of
three backticks.  With `re.MULTILINE` the anchors hold at the start and end
of every line, and neither alternative can contain a newline, so no match
crosses a line boundary: the substitution acts line by line, with the
engine's leftmost, first-alternative-first scan inside each line.
-/

/-- Scan of the interior of one line (a chunk containing no newline), past
its start.  Away from the line start only the second alternative of the
pattern can match: three backticks anchored at the end of the line, i.e. a
position whose remaining suffix is exactly three backticks.  The engine
copies a character and advances whenever no match starts at the current
position, so the leftmost such match is found. -/
def subLineMid : List Char → List Char
  | '\x60' :: '\x60' :: '\x60' :: [] => []
  | c :: rest => c :: subLineMid rest
  | [] => []

/-- Scan of one whole line.  At the line start the first alternative is
tried first: three backticks plus an optional greedy `json` tag; after the
match (or when the line does not open with a fence) the scan continues away
from the line start. -/
def subLineStart (l : List Char) : List Char :=
  match l with
  | '\x60' :: '\x60' :: '\x60' :: 'j' :: 's' :: 'o' :: 'n' :: rest => subLineMid rest
  | '\x60' :: '\x60' :: '\x60' :: rest => subLineMid rest
  | _ => subLineMid l

/-- Split a character list into its lines (pieces between newlines); the
newline separators are not part of any piece.  A trailing newline yields a
final empty piece, matching how the multiline anchors see the text. -/
def linesOf : List Char → List (List Char)
  | [] => [[]]
  | c :: rest =>
    if c = '\n' then [] :: linesOf rest
    else (c :: (linesOf rest).headI) :: (linesOf rest).tail

/-- Rejoin lines with newlines, inverse of `linesOf`. -/
def joinLines : List (List Char) → List Char
  | [] => []
  | [l] => l
  | l :: l2 :: ls => l ++ '\n' :: joinLines (l2 :: ls)

/-- The whole `re.sub` call on the response text. -/
def subFences (cs : List Char) : List Char :=
  joinLines ((linesOf cs).map subLineStart)

/-- Python whitespace for `str.strip()`: space, tab, newline, carriage
return, vertical tab, form feed (the ASCII whitespace class; Python also
strips other Unicode space characters, none of which this development
manipulates). -/
def isPySpace (c : Char) : Bool :=
  c = ' ' || c = '\t' || c = '\n' || c = '\r' || c = '\x0b' || c = '\x0c'

/-- `str.strip()`: drop whitespace from both ends. -/
def pyStrip (cs : List Char) : List Char :=
  (((cs.dropWhile isPySpace).reverse.dropWhile isPySpace)).reverse

/-- `clean_text = re.sub(...).strip()` applied to the response text. -/
def clean_text (cs : List Char) : List Char :=
  pyStrip (subFences cs)

/-- A response wrapped in markdown fences with the `json` language tag:
a fence line, the text, a closing fence line. -/
def wrapJsonFence (t : List Char) : List Char :=
  '\x60' :: '\x60' :: '\x60' :: 'j' :: 's' :: 'o' :: 'n' :: '\n' ::
    (t ++ '\n' :: '\x60' :: '\x60' :: '\x60' :: [])

/-- A response wrapped in bare markdown fences (no language tag). -/
def wrapBareFence (t : List Char) : List Char :=
  '\x60' :: '\x60' :: '\x60' :: '\n' ::
    (t ++ '\n' :: '\x60' :: '\x60' :: '\x60' :: [])

/-! Lemmas about the line decomposition and stripping. -/

theorem linesOf_ne_nil (cs : List Char) : linesOf cs ≠ [] := by
  cases cs with
  | nil => simp [linesOf]
  | cons c rest =>
    by_cases h : c = '\n' <;> simp [linesOf, h]

theorem linesOf_append_newline (t u : List Char) :
    linesOf (t ++ '\n' :: u) = linesOf t ++ linesOf u := by
  induction t with
  | nil => simp [linesOf]
  | cons c r ih =>
    by_cases h : c = '\n'
    · simp [linesOf, h, ih]
    · rcases hr : linesOf r with _ | ⟨l, ls⟩
      · exact absurd hr (linesOf_ne_nil r)
      · simp [linesOf, h, ih, hr]

theorem joinLines_append (xs ys : List (List Char)) (hxs : xs ≠ [])
    (hys : ys ≠ []) :
    joinLines (xs ++ ys) = joinLines xs ++ '\n' :: joinLines ys := by
  induction xs with
  | nil => exact absurd rfl hxs
  | cons l xs' ih =>
    cases xs' with
    | nil =>
      rcases ys with _ | ⟨y, ys'⟩
      · exact absurd rfl hys
      · simp [joinLines]
    | cons l2 xs'' =>
      have h := ih (by simp)
      simp only [List.cons_append] at h ⊢
      simp [joinLines, h, List.append_assoc]

theorem pyStrip_newline_cons (x : List Char) : pyStrip ('\n' :: x) = pyStrip x := by
  simp [pyStrip, List.dropWhile_cons, isPySpace]

theorem pyStrip_append_newline (x : List Char) :
    pyStrip (x ++ ['\n']) = pyStrip x := by
  unfold pyStrip
  rcases hd : x.dropWhile isPySpace with _ | ⟨d, ds⟩
  · rw [List.dropWhile_append, hd]
    simp [List.dropWhile_cons, isPySpace]
  · rw [List.dropWhile_append, hd]
    simp only [List.isEmpty_cons, Bool.false_eq_true, if_false]
    simp [List.dropWhile_cons, isPySpace]

theorem subFences_wrapJson (t : List Char) :
    subFences (wrapJsonFence t) = '\n' :: (subFences t ++ ['\n']) := by
  have h1 : wrapJsonFence t =
      ('\x60' :: '\x60' :: '\x60' :: 'j' :: 's' :: 'o' :: 'n' :: []) ++
        '\n' :: (t ++ '\n' :: ('\x60' :: '\x60' :: '\x60' :: [])) := rfl
  rw [subFences, h1, linesOf_append_newline, linesOf_append_newline]
  rw [List.map_append, List.map_append]
  have hfj : linesOf ('\x60' :: '\x60' :: '\x60' :: 'j' :: 's' :: 'o' :: 'n' :: []) =
      [['\x60', '\x60', '\x60', 'j', 's', 'o', 'n']] := by decide
  have hf : linesOf ('\x60' :: '\x60' :: '\x60' :: []) = [['\x60', '\x60', '\x60']] := by decide
  rw [hfj, hf]
  have hsj : ([['\x60', '\x60', '\x60', 'j', 's', 'o', 'n']]).map subLineStart = [[]] := by decide
  have hs : ([['\x60', '\x60', '\x60']]).map subLineStart = [[]] := by decide
  rw [hsj, hs]
  have hm : (linesOf t).map subLineStart ≠ [] := by
    simp [linesOf_ne_nil t]
  rw [joinLines_append [[]] ((linesOf t).map subLineStart ++ [[]]) (by simp)
    (by simp), joinLines_append ((linesOf t).map subLineStart) [[]] hm (by simp)]
  simp [joinLines, subFences]

theorem subFences_wrapBare (t : List Char) :
    subFences (wrapBareFence t) = '\n' :: (subFences t ++ ['\n']) := by
  have h1 : wrapBareFence t =
      ('\x60' :: '\x60' :: '\x60' :: []) ++
        '\n' :: (t ++ '\n' :: ('\x60' :: '\x60' :: '\x60' :: [])) := rfl
  rw [subFences, h1, linesOf_append_newline, linesOf_append_newline]
  rw [List.map_append, List.map_append]
  have hf : linesOf ('\x60' :: '\x60' :: '\x60' :: []) = [['\x60', '\x60', '\x60']] := by decide
  rw [hf]
  have hs : ([['\x60', '\x60', '\x60']]).map subLineStart = [[]] := by decide
  rw [hs]
  have hm : (linesOf t).map subLineStart ≠ [] := by
    simp [linesOf_ne_nil t]
  rw [joinLines_append [[]] ((linesOf t).map subLineStart ++ [[]]) (by simp)
    (by simp), joinLines_append ((linesOf t).map subLineStart) [[]] hm (by simp)]
  simp [joinLines, subFences]

theorem clean_text_wrapJson (t : List Char) :
    clean_text (wrapJsonFence t) = clean_text t := by
  rw [clean_text, subFences_wrapJson, pyStrip_newline_cons]
  rw [show subFences t ++ ['\n'] = subFences t ++ ['\n'] from rfl,
    pyStrip_append_newline]
  rfl

theorem clean_text_wrapBare (t : List Char) :
    clean_text (wrapBareFence t) = clean_text t := by
  rw [clean_text, subFences_wrapBare, pyStrip_newline_cons, pyStrip_append_newline]
  rfl

/-! Lemmas about the per-image loop. -/

theorem flattenEntries_acc : ∀ (es : List Json) (acc : List FlatRecord),
    flattenEntries es acc =
      (acc ++ (flattenEntries es []).1, (flattenEntries es []).2)
  | [], acc => by simp [flattenEntries]
  | e :: rest, acc => by
    cases h : flat_data e with
    | ok r =>
      simp only [flattenEntries, h]
      rw [flattenEntries_acc rest (acc ++ [r]), flattenEntries_acc rest ([] ++ [r])]
      simp
    | error err => simp [flattenEntries, h]

theorem processImage_acc (inp : Except PyErr Json) (acc : List FlatRecord) :
    processImage inp acc = (acc ++ imageRows inp, imageOk inp) := by
  cases inp with
  | error e => simp [processImage, imageRows, imageOk]
  | ok p =>
    cases h : iterateParsed p with
    | error e => simp [processImage, imageRows, imageOk, h]
    | ok es =>
      simp only [processImage, imageRows, imageOk, h]
      rw [flattenEntries_acc es acc]

theorem stepImage_eq (s : RunState) (inp : Except PyErr Json) :
    stepImage s inp =
      ⟨s.all_data ++ imageRows inp,
       s.successes + (if imageOk inp then 1 else 0),
       s.warnings + (if imageOk inp then 0 else 1)⟩ := by
  unfold stepImage
  rw [processImage_acc]
  cases h : imageOk inp <;> simp [h]

theorem foldl_stepImage : ∀ (inputs : List (Except PyErr Json)) (s : RunState),
    inputs.foldl stepImage s =
      ⟨s.all_data ++ (inputs.map imageRows).flatten,
       s.successes + inputs.countP (fun i => imageOk i),
       s.warnings + inputs.countP (fun i => !imageOk i)⟩
  | [], s => by simp
  | i :: rest, s => by
    simp only [List.foldl_cons]
    rw [stepImage_eq, foldl_stepImage rest]
    cases h : imageOk i <;>
      simp [h, List.countP_cons, List.map_cons, List.flatten_cons,
        List.append_assoc] <;> try omega

theorem runLoop_eq (inputs : List (Except PyErr Json)) :
    runLoop inputs =
      ⟨(inputs.map imageRows).flatten,
       inputs.countP (fun i => imageOk i),
       inputs.countP (fun i => !imageOk i)⟩ := by
  rw [runLoop, foldl_stepImage]
  simp

theorem flattenEntries_length_of_ok : ∀ (es : List Json),
    (flattenEntries es []).2 = true →
      (flattenEntries es []).1.length = es.length
  | [], _ => by simp [flattenEntries]
  | e :: rest, h => by
    cases hf : flat_data e with
    | ok r =>
      rw [flattenEntries_acc] at h ⊢
      simp only [flattenEntries, hf] at h ⊢
      rw [flattenEntries_acc rest] at h ⊢
      simp at h ⊢
      exact flattenEntries_length_of_ok rest h
    | error err => simp [flattenEntries, hf] at h

theorem imageRows_length_of_ok (inp : Except PyErr Json)
    (h : imageOk inp = true) : (imageRows inp).length = numEntries inp := by
  cases inp with
  | error e => simp [imageOk, processImage] at h
  | ok p =>
    cases hi : iterateParsed p with
    | error e => simp [imageOk, processImage, hi] at h
    | ok es =>
      simp only [imageOk, processImage, hi] at h
      simp only [imageRows, processImage, hi, numEntries]
      exact flattenEntries_length_of_ok es h

theorem flatten_rows_length : ∀ (inputs : List (Except PyErr Json)),
    (∀ inp ∈ inputs, imageOk inp = false → imageRows inp = []) →
      ((inputs.map imageRows).flatten).length =
        ((inputs.filter (fun i => imageOk i)).map numEntries).sum
  | [], _ => by simp
  | i :: rest, h => by
    have hi := h i (by simp)
    have hr : ∀ inp ∈ rest, imageOk inp = false → imageRows inp = [] :=
      fun inp hm => h inp (by simp [hm])
    have ih := flatten_rows_length rest hr
    cases hoki : imageOk i with
    | true =>
      simp [List.filter_cons, hoki, imageRows_length_of_ok i hoki, ih]
    | false =>
      simp [List.filter_cons, hoki, hi hoki, ih]

theorem flattenEntries_append_of_ok :
    ∀ (pre : List Json) (acc recs : List FlatRecord),
      flattenEntries pre acc = (recs, true) →
      ∀ ys, flattenEntries (pre ++ ys) acc = flattenEntries ys recs
  | [], acc, recs, h, ys => by
    simp [flattenEntries] at h
    simp [h]
  | e :: p, acc, recs, h, ys => by
    cases hf : flat_data e with
    | ok r =>
      simp only [flattenEntries, hf] at h
      simpa [flattenEntries, hf] using
        flattenEntries_append_of_ok p (acc ++ [r]) recs h ys
    | error err =>
      simp [flattenEntries, hf] at h

/-! Lemmas about the `or`-chain for the API key. -/

theorem pyOrChain_firstNonEmpty : ∀ (vs : List (Option String)),
    (truthy (pyOrChain vs) = false ∧ firstNonEmpty vs = none) ∨
      pyOrChain vs = firstNonEmpty vs
  | [] => Or.inl ⟨rfl, rfl⟩
  | [v] => by
    cases v with
    | none => exact Or.inl ⟨rfl, rfl⟩
    | some s =>
      by_cases e : s.isEmpty
      · exact Or.inl ⟨by simp [pyOrChain, truthy, e], by simp [firstNonEmpty, e]⟩
      · exact Or.inr (by simp [pyOrChain, firstNonEmpty, e])
  | v :: w :: rest => by
    have ih := pyOrChain_firstNonEmpty (w :: rest)
    cases v with
    | none =>
      simpa [pyOrChain, pyOrStr, truthy, firstNonEmpty] using ih
    | some s =>
      by_cases e : s.isEmpty
      · simpa [pyOrChain, pyOrStr, truthy, e, firstNonEmpty] using ih
      · exact Or.inr (by simp [pyOrChain, pyOrStr, truthy, e, firstNonEmpty])

/-! Lemmas about flattening one entry. -/

theorem flat_data_obj (fields lf : List (String × Json))
    (hld : dictGet fields "LocationDetails" (Json.obj []) = Json.obj lf) :
    flat_data (Json.obj fields) =
      Except.bind (joinContacts (dictGet fields "ContactNumbers" (Json.arr [])))
        (fun cn => Except.ok
          ⟨dictGet fields "EstablishmentType" (Json.str ""),
           dictGet fields "HostelName" (Json.str ""),
           dictGet lf "Landmark1" (Json.str ""),
           dictGet lf "Landmark2" (Json.str ""),
           dictGet fields "KeyService" (Json.str ""),
           dictGet fields "AccommodationOptions" (Json.str ""), cn⟩) := by
  unfold flat_data
  simp only [pyGet, Bind.bind, Except.bind, hld]

theorem asStrList_map_str : ∀ (ss : List String),
    asStrList (ss.map Json.str) = Except.ok ss
  | [] => rfl
  | s :: rest => by
    simp only [List.map_cons, asStrList, asStr, Bind.bind, Except.bind,
      asStrList_map_str rest]

/-! The claims. -/

/-- C2: for every response text, the normalizer applied to the text wrapped
in markdown code fences (a fence line, with or without the `json` language
tag, before; a fence line after) yields the same parsed JSON structure as
the normalizer applied to the unwrapped text: the cleaned character
sequences coincide, so every parsing function maps the two responses to the
same result. -/
theorem fence_wrapping_invariant (t : List Char)
    (parse : List Char → Except PyErr Json) :
    parse (clean_text (wrapJsonFence t)) = parse (clean_text t) ∧
    parse (clean_text (wrapBareFence t)) = parse (clean_text t) :=
  ⟨by rw [clean_text_wrapJson], by rw [clean_text_wrapBare]⟩

/-- C4: flattening the specific example entry produces exactly the flat
record ("Hostel", "X", "A", "", "WiFi", "Dorm", "111, 222"). -/
theorem flat_data_example :
    flat_data (Json.obj [("EstablishmentType", Json.str "Hostel"),
      ("HostelName", Json.str "X"),
      ("LocationDetails", Json.obj
        [("Landmark1", Json.str "A"), ("Landmark2", Json.str "")]),
      ("KeyService", Json.str "WiFi"),
      ("AccommodationOptions", Json.str "Dorm"),
      ("ContactNumbers", Json.arr [Json.str "111", Json.str "222"])]) =
    Except.ok ⟨Json.str "Hostel", Json.str "X", Json.str "A", Json.str "",
      Json.str "WiFi", Json.str "Dorm", "111, 222"⟩ := by
  rfl

/-- C5: a response parsing to a single JSON object and one parsing to the
one-element array holding that object are processed identically: the dict is
wrapped into a one-element list before flattening, so the flat records (and
the success flag) coincide for every accumulator. -/
theorem single_object_matches_singleton_array (fields : List (String × Json))
    (acc : List FlatRecord) :
    processImage (Except.ok (Json.obj fields)) acc =
      processImage (Except.ok (Json.arr [Json.obj fields])) acc := rfl

/-- C1 is refuted at this concrete input: a single image whose parsed value
is a two-entry array where the first entry flattens and the second raises.
The image is counted failed (one warning, zero successes), yet its first
entry's row reaches the final table, whose size 1 therefore differs from the
sum of parsed-entry counts over the successful images, which is 0. -/
theorem failed_image_row_count_mismatch :
    (runLoop [Except.ok (Json.arr [Json.obj [], Json.null])]).warnings = 1 ∧
    (runLoop [Except.ok (Json.arr [Json.obj [], Json.null])]).successes = 0 ∧
    (runLoop [Except.ok (Json.arr [Json.obj [], Json.null])]).all_data.length = 1 ∧
    ¬ ((runLoop [Except.ok (Json.arr [Json.obj [], Json.null])]).all_data.length =
      ((([Except.ok (Json.arr [Json.obj [], Json.null])] :
          List (Except PyErr Json)).filter (fun i => imageOk i)).map
        numEntries).sum) :=
  ⟨rfl, rfl, rfl, fun hh => absurd (show (1 : Nat) = 0 from hh) (by decide)⟩

/-- C1 (amended): every run reports exactly one warning per failed image;
and when each failed image contributed no rows (it failed during open, model
call, or normalization, or on its first entry — i.e. before any entry of the
image was flattened), the final table holds exactly the sum of parsed-entry
counts across the successful images.  Without that restriction an image
failing mid-flattening keeps its earlier rows, refuting the unrestricted
count. -/
theorem run_row_count_no_partial (inputs : List (Except PyErr Json))
    (h : ∀ inp ∈ inputs, imageOk inp = false → imageRows inp = []) :
    (runLoop inputs).warnings = inputs.countP (fun i => !imageOk i) ∧
    (runLoop inputs).all_data.length =
      ((inputs.filter (fun i => imageOk i)).map numEntries).sum := by
  rw [runLoop_eq]
  exact ⟨rfl, flatten_rows_length inputs h⟩

/-- The amended C1 at a concrete two-image run: the first image fails during
parsing (no rows), the second parses to one entry; one warning, one row. -/
theorem run_row_count_no_partial_witness :
    (runLoop [Except.error PyErr.typeError,
        Except.ok (Json.arr [Json.obj []])]).warnings =
      ([Except.error PyErr.typeError, Except.ok (Json.arr [Json.obj []])] :
        List (Except PyErr Json)).countP (fun i => !imageOk i) ∧
    (runLoop [Except.error PyErr.typeError,
        Except.ok (Json.arr [Json.obj []])]).all_data.length =
      ((([Except.error PyErr.typeError, Except.ok (Json.arr [Json.obj []])] :
          List (Except PyErr Json)).filter (fun i => imageOk i)).map
        numEntries).sum :=
  run_row_count_no_partial _ (by
    intro inp hm hfalse
    rcases List.mem_cons.mp hm with rfl | hm2
    · rfl
    · rcases List.mem_cons.mp hm2 with rfl | hm3
      · exact absurd hfalse (by decide)
      · cases hm3)

/-- C3: in a run where every image fails and the accumulated record list is
empty after the loop, the post-loop export step (run once, after the whole
loop) shows the error message and offers no download. -/
theorem all_failed_shows_error (inputs : List (Except PyErr Json))
    (_hfail : ∀ inp ∈ inputs, imageOk inp = false)
    (hempty : (runLoop inputs).all_data = []) :
    runApp inputs = ExportResult.errorMessage
      "No valid data was extracted from the uploaded images." ∧
    ∀ cols rows fn, runApp inputs ≠ ExportResult.download cols rows fn := by
  have h1 : runApp inputs = exportStep (runLoop inputs).all_data := rfl
  rw [h1, hempty]
  exact ⟨rfl, fun cols rows fn hcontra => by simp [exportStep] at hcontra⟩

/-- C3 at a concrete run: a single image failing during the model call. -/
theorem all_failed_shows_error_witness :
    runApp [Except.error PyErr.typeError] = ExportResult.errorMessage
      "No valid data was extracted from the uploaded images." ∧
    ∀ cols rows fn,
      runApp [Except.error PyErr.typeError] ≠
        ExportResult.download cols rows fn :=
  all_failed_shows_error _ (by
    intro inp hm
    rcases List.mem_cons.mp hm with rfl | hm2
    · rfl
    · cases hm2) rfl

/-- C6: a parsed entry (a mapping whose LocationDetails value, when present,
is itself a mapping) in which the ContactNumbers key is absent flattens
without error and its ContactNumbers column is the empty string; moreover an
empty contact list joins to the empty string and a non-empty list of strings
is joined with ", ". -/
theorem missing_contact_numbers_empty (fields : List (String × Json))
    (ss : List String)
    (hcn : fields.lookup "ContactNumbers" = none)
    (hldm : ∀ v, fields.lookup "LocationDetails" = some v →
      ∃ lf, v = Json.obj lf)
    (_hss : ss ≠ []) :
    (∃ r, flat_data (Json.obj fields) = Except.ok r ∧
      r.contactNumbers = "") ∧
    joinContacts (Json.arr []) = Except.ok "" ∧
    joinContacts (Json.arr (ss.map Json.str)) =
      Except.ok (String.intercalate ", " ss) := by
  have hcd : dictGet fields "ContactNumbers" (Json.arr []) = Json.arr [] := by
    simp [dictGet, hcn]
  refine ⟨?_, rfl, ?_⟩
  · rcases hl : fields.lookup "LocationDetails" with _ | v
    · have hld : dictGet fields "LocationDetails" (Json.obj []) = Json.obj [] := by
        simp [dictGet, hl]
      refine ⟨⟨dictGet fields "EstablishmentType" (Json.str ""),
        dictGet fields "HostelName" (Json.str ""), Json.str "", Json.str "",
        dictGet fields "KeyService" (Json.str ""),
        dictGet fields "AccommodationOptions" (Json.str ""), ""⟩, ?_, rfl⟩
      rw [flat_data_obj fields [] hld, hcd]
      rfl
    · obtain ⟨lf, rfl⟩ := hldm v hl
      have hld : dictGet fields "LocationDetails" (Json.obj []) = Json.obj lf := by
        simp [dictGet, hl]
      refine ⟨⟨dictGet fields "EstablishmentType" (Json.str ""),
        dictGet fields "HostelName" (Json.str ""),
        dictGet lf "Landmark1" (Json.str ""),
        dictGet lf "Landmark2" (Json.str ""),
        dictGet fields "KeyService" (Json.str ""),
        dictGet fields "AccommodationOptions" (Json.str ""), ""⟩, ?_, rfl⟩
      rw [flat_data_obj fields lf hld, hcd]
      rfl
  · simp only [joinContacts, asStrList_map_str ss]
    rfl

/-- C6 at a concrete entry: the empty mapping, and the contact list
["111", "222"]. -/
theorem missing_contact_numbers_empty_witness :
    (∃ r, flat_data (Json.obj []) = Except.ok r ∧ r.contactNumbers = "") ∧
    joinContacts (Json.arr []) = Except.ok "" ∧
    joinContacts (Json.arr (["111", "222"].map Json.str)) =
      Except.ok (String.intercalate ", " ["111", "222"]) :=
  missing_contact_numbers_empty [] ["111", "222"] rfl
    (fun v hv => Option.noConfusion hv) (by simp)

/-- C7: the API key is the Python `or`-chain over the four environment
variables; its value equals the first set, non-empty variable in the fixed
precedence order, and is falsy (`None` or the empty string, both treated as
absent by the `if uploaded_images and api_key` guard) when every variable is
unset or empty. -/
theorem api_key_precedence (env : String → Option String) :
    (truthy (api_key env) = false ∧ firstNonEmptyKey env = none) ∨
      api_key env = firstNonEmptyKey env := by
  have h : api_key env = pyOrChain (keyVars.map env) := rfl
  rw [h, firstNonEmptyKey]
  exact pyOrChain_firstNonEmpty (keyVars.map env)

/-- C8: a run with a non-empty accumulated table downloads a single sheet
whose columns are the seven fixed names in dict-literal order, whose rows
are the per-image row lists concatenated in processing order (one row per
flattened entry, in entry order), under the fixed filename; and a
successful image contributes exactly one row per parsed entry. -/
theorem export_shape (inputs : List (Except PyErr Json))
    (inp : Except PyErr Json)
    (hne : (runLoop inputs).all_data ≠ [])
    (hok : imageOk inp = true) :
    runApp inputs =
      ExportResult.download columnOrder ((inputs.map imageRows).flatten)
        "Combined_Extracted_Data.xlsx" ∧
    columnOrder = ["EstablishmentType", "HostelName", "Landmark1",
      "Landmark2", "KeyService", "AccommodationOptions", "ContactNumbers"] ∧
    (imageRows inp).length = numEntries inp := by
  refine ⟨?_, rfl, imageRows_length_of_ok inp hok⟩
  have hd : (runLoop inputs).all_data = (inputs.map imageRows).flatten := by
    rw [runLoop_eq]
  show exportStep (runLoop inputs).all_data = _
  rw [hd] at hne ⊢
  rcases hflat : (inputs.map imageRows).flatten with _ | ⟨r, rs⟩
  · exact absurd hflat hne
  · rfl

/-- C8 at a concrete run: one image parsing to a single empty entry. -/
theorem export_shape_witness :
    runApp [Except.ok (Json.obj [])] =
      ExportResult.download columnOrder
        ((([Except.ok (Json.obj [])] :
          List (Except PyErr Json)).map imageRows).flatten)
        "Combined_Extracted_Data.xlsx" ∧
    columnOrder = ["EstablishmentType", "HostelName", "Landmark1",
      "Landmark2", "KeyService", "AccommodationOptions", "ContactNumbers"] ∧
    (imageRows (Except.ok (Json.obj []))).length =
      numEntries (Except.ok (Json.obj [])) :=
  export_shape _ _ (fun hc => List.noConfusion hc) rfl

/-- C9: a parsed entry (a mapping whose LocationDetails value, when present,
is itself a mapping) whose ContactNumbers value is a bare string flattens
without error, and the ContactNumbers column is the string's characters
joined with ", " — the string is iterated as a sequence of characters. -/
theorem bare_string_contacts (fields : List (String × Json)) (s : String)
    (hldm : ∀ v, fields.lookup "LocationDetails" = some v →
      ∃ lf, v = Json.obj lf)
    (hcn : fields.lookup "ContactNumbers" = some (Json.str s)) :
    ∃ r, flat_data (Json.obj fields) = Except.ok r ∧
      r.contactNumbers =
        String.intercalate ", " (s.data.map String.singleton) := by
  have hcd : dictGet fields "ContactNumbers" (Json.arr []) = Json.str s := by
    simp [dictGet, hcn]
  rcases hl : fields.lookup "LocationDetails" with _ | v
  · have hld : dictGet fields "LocationDetails" (Json.obj []) = Json.obj [] := by
      simp [dictGet, hl]
    refine ⟨⟨dictGet fields "EstablishmentType" (Json.str ""),
      dictGet fields "HostelName" (Json.str ""), Json.str "", Json.str "",
      dictGet fields "KeyService" (Json.str ""),
      dictGet fields "AccommodationOptions" (Json.str ""),
      String.intercalate ", " (s.data.map String.singleton)⟩, ?_, rfl⟩
    rw [flat_data_obj fields [] hld, hcd]
    rfl
  · obtain ⟨lf, rfl⟩ := hldm v hl
    have hld : dictGet fields "LocationDetails" (Json.obj []) = Json.obj lf := by
      simp [dictGet, hl]
    refine ⟨⟨dictGet fields "EstablishmentType" (Json.str ""),
      dictGet fields "HostelName" (Json.str ""),
      dictGet lf "Landmark1" (Json.str ""),
      dictGet lf "Landmark2" (Json.str ""),
      dictGet fields "KeyService" (Json.str ""),
      dictGet fields "AccommodationOptions" (Json.str ""),
      String.intercalate ", " (s.data.map String.singleton)⟩, ?_, rfl⟩
    rw [flat_data_obj fields lf hld, hcd]
    rfl

/-- C9 at the concrete entry whose ContactNumbers is the bare string "123":
the column becomes "1, 2, 3". -/
theorem bare_string_contacts_witness :
    ∃ r, flat_data (Json.obj [("ContactNumbers", Json.str "123")]) =
        Except.ok r ∧
      r.contactNumbers = "1, 2, 3" := by
  obtain ⟨r, h1, h2⟩ :=
    bare_string_contacts [("ContactNumbers", Json.str "123")] "123"
      (fun v hv => Option.noConfusion hv) rfl
  exact ⟨r, h1, by rw [h2]; rfl⟩

/-- C10: when an image's parsed array has a prefix of entries that flatten
successfully followed by an entry that raises, the prefix's records are
appended before the failure and stay in the final table of every run
containing the image, even though the image is reported as failed. -/
theorem partial_rows_remain (pre : List Json) (bad : Json) (rest : List Json)
    (inputs1 inputs2 : List (Except PyErr Json)) (recs : List FlatRecord)
    (hpre : flattenEntries pre [] = (recs, true))
    (hbad : ∃ e, flat_data bad = Except.error e) :
    imageRows (Except.ok (Json.arr (pre ++ bad :: rest))) = recs ∧
    imageOk (Except.ok (Json.arr (pre ++ bad :: rest))) = false ∧
    (runLoop (inputs1 ++
        Except.ok (Json.arr (pre ++ bad :: rest)) :: inputs2)).all_data =
      (inputs1.map imageRows).flatten ++ recs ++
        (inputs2.map imageRows).flatten := by
  obtain ⟨e, he⟩ := hbad
  have key : flattenEntries (pre ++ bad :: rest) [] = (recs, false) := by
    rw [flattenEntries_append_of_ok pre [] recs hpre (bad :: rest)]
    simp [flattenEntries, he]
  have h1 : imageRows (Except.ok (Json.arr (pre ++ bad :: rest))) = recs := by
    simp [imageRows, processImage, iterateParsed, key]
  have h2 : imageOk (Except.ok (Json.arr (pre ++ bad :: rest))) = false := by
    simp [imageOk, processImage, iterateParsed, key]
  refine ⟨h1, h2, ?_⟩
  rw [runLoop_eq]
  simp [List.map_append, List.flatten_append, h1, List.append_assoc]

/-- C10 at a concrete image: the parsed array [{}, null]; the empty entry's
row survives in the final table while the image warns. -/
theorem partial_rows_remain_witness :
    imageRows (Except.ok (Json.arr ([Json.obj []] ++ Json.null :: []))) =
      [⟨Json.str "", Json.str "", Json.str "", Json.str "", Json.str "",
        Json.str "", ""⟩] ∧
    imageOk (Except.ok (Json.arr ([Json.obj []] ++ Json.null :: []))) = false ∧
    (runLoop (([] : List (Except PyErr Json)) ++
        Except.ok (Json.arr ([Json.obj []] ++ Json.null :: [])) ::
          ([] : List (Except PyErr Json)))).all_data =
      ((([] : List (Except PyErr Json)).map imageRows).flatten) ++
        [⟨Json.str "", Json.str "", Json.str "", Json.str "", Json.str "",
          Json.str "", ""⟩] ++
        ((([] : List (Except PyErr Json)).map imageRows).flatten) :=
  partial_rows_remain [Json.obj []] Json.null [] [] []
    [⟨Json.str "", Json.str "", Json.str "", Json.str "", Json.str "",
      Json.str "", ""⟩] rfl ⟨PyErr.attributeError, rfl⟩

end FirstTry
